import Mathlib

/-
Shallow embedding of the agent control loop (src/app/agent/toolcall.py) and
of the interactive PowerShell session (src/app/tool/powershell.py).

External collaborators (the LLM client, JSON parsing, tool-registry
dispatch, the message constructors of app/schema.py, process I/O) are
modelled as explicit environment records, so the theorems below quantify
over all of their behaviours.  Text handled by the session protocol is
modelled as `List Char` (a faithful model of Python `str`) so that
substring search and truncation can be reasoned about directly.
-/

namespace TC

/-- Modelled from the spec: app/schema.py is not under src/.  The spec's
ToolCall is `{id, function:{name, arguments: serialized-structure string}}`;
the function field is always present, a missing or empty name is the empty
string, and a missing argument payload is `none`. -/
structure FunctionSpec where
  name : String
  arguments : Option String
deriving DecidableEq

structure ToolCall where
  id : String
  function : FunctionSpec
deriving DecidableEq

/-- Modelled from the spec: message roles system, user, assistant, tool. -/
inductive Role where
  | system | user | assistant | tool
deriving DecidableEq

/-- Modelled from the spec: one conversation turn; text content optional;
tool_call_id and tool name are back-references used on tool-role turns. -/
structure Message where
  role : Role
  content : Option String
  tool_call_id : Option String
  name : Option String
deriving DecidableEq

def user_message (c : String) : Message :=
  ⟨Role.user, Option.some c, Option.none, Option.none⟩

def assistant_message (c : String) : Message :=
  ⟨Role.assistant, Option.some c, Option.none, Option.none⟩

def tool_message (content id name : String) : Message :=
  ⟨Role.tool, Option.some content, Option.some id, Option.some name⟩

inductive AgentState where
  | idle | running | finished | error
deriving DecidableEq

inductive ToolChoice where
  | none | auto | required
deriving DecidableEq

/-- Result value handed back by a tool's execute, as observed by
execute_tool: its str() rendering and its Python truthiness. -/
structure ToolResultV where
  str : String
  truthy : Bool
deriving DecidableEq

/-- Outcome of the external dispatch available_tools.execute: either a
returned value or a raised exception rendered by str(e). -/
inductive ExecOutcome where
  | ok (r : ToolResultV)
  | exn (msg : String)
deriving DecidableEq

/-- Response object of llm.ask_tool; content and tool_calls are optional
fields (an absent field and a present None both collapse to `none`). -/
structure LLMResponse where
  content : Option String
  tool_calls : Option (List ToolCall)

/-- Behaviour of the external collaborators during one think/act cycle:
the tool registry's key set, the JSON argument decoder (`none` models a
JSONDecodeError), the registry dispatch (which may raise), the LLM call
(which may raise), and the Message.from_tool_calls constructor of
app/schema.py (external code, so it too may raise). -/
structure Env where
  toolNames : List String
  parseJson : String → Option String
  execTool : String → String → ExecOutcome
  askTool : Except String LLMResponse
  fromToolCalls : Option String → List ToolCall → Except String Message

/-- State of one ToolCallAgent instance that the embedded methods read and
write: src/app/agent/toolcall.py lines 19-33 plus the memory and state
fields inherited from the (external) base agent. -/
structure Agent where
  next_step_prompt : String
  tool_choices : ToolChoice
  special_tool_names : List String
  tool_calls : List ToolCall
  memory : List Message
  state : AgentState
deriving DecidableEq

def addMsg (a : Agent) (m : Message) : Agent :=
  { a with memory := a.memory ++ [m] }

def TOOL_CALL_REQUIRED : String := "Tool calls required but none provided"

/-- toolcall.py line 212: `_should_finish_execution` always returns True. -/
def should_finish_execution : Bool := true

/-- Python str.lower, applied characterwise (adequate for the ASCII tool
names the source compares). -/
def lowerStr (s : String) : String := String.mk (s.data.map Char.toLower)

/-- toolcall.py lines 214-216. -/
def is_special_tool (a : Agent) (name : String) : Bool :=
  (a.special_tool_names.map lowerStr).contains (lowerStr name)

/-- toolcall.py lines 199-207. -/
def handle_special_tool (a : Agent) (name : String) : Agent :=
  if is_special_tool a name then
    if should_finish_execution then { a with state := AgentState.finished } else a
  else a

/-- Python `command.function.arguments or "{}"` (line 171). -/
def argString (f : FunctionSpec) : String :=
  match f.arguments with
  | Option.none => "{}"
  | Option.some s => if s = "" then "{}" else s

/-- toolcall.py lines 160-197.  Total by construction: every failure path
of the source returns a string, none re-raises. -/
def execute_tool (env : Env) (a : Agent) (cmd : ToolCall) : String × Agent :=
  if cmd.function.name = "" then ("Error: Invalid command format", a)
  else
    let name := cmd.function.name
    if ¬ env.toolNames.contains name then
      ("Error: Unknown tool '" ++ name ++ "'", a)
    else
      match env.parseJson (argString cmd.function) with
      | Option.none =>
          ("Error: Error parsing arguments for " ++ name ++ ": Invalid JSON format", a)
      | Option.some args =>
          match env.execTool name args with
          | ExecOutcome.exn e =>
              ("Error: ⚠️ Tool '" ++ name ++ "' encountered a problem: " ++ e, a)
          | ExecOutcome.ok r =>
              let obs :=
                if r.truthy then
                  "Observed output of cmd `" ++ name ++ "` executed:\n" ++ r.str
                else "Cmd `" ++ name ++ "` completed with no output"
              (obs, handle_special_tool a name)

/-- Loop body of act (toolcall.py lines 144-156): execute each call in
order, append one tool-role message per call, collect the observations. -/
def actLoop (env : Env) : List ToolCall → Agent → List String × Agent
  | [], a => ([], a)
  | c :: rest, a =>
    let r := execute_tool env a c
    let a2 := addMsg r.2 (tool_message r.1 c.id c.function.name)
    let tail := actLoop env rest a2
    (r.1 :: tail.1, tail.2)

/-- Result of a call to act: Python either raises or returns a string (the
agent's fields were possibly updated along the way). -/
inductive ActResult where
  | raised (msg : String)
  | returned (value : String) (a : Agent)
deriving DecidableEq

/-- Python `m.content or default`. -/
def contentOrDefault (c : Option String) (d : String) : String :=
  match c with
  | Option.none => d
  | Option.some s => if s = "" then d else s

/-- toolcall.py lines 135-158.  `self.messages` is the memory log
(property of the external base agent; modelled from the spec: Memory is
the append-only ordered log); `self.messages[-1]` on an empty log is a
Python IndexError. -/
def act (env : Env) (a : Agent) : ActResult :=
  if a.tool_calls = [] then
    if a.tool_choices = ToolChoice.required then ActResult.raised TOOL_CALL_REQUIRED
    else
      match a.memory.getLast? with
      | Option.none => ActResult.raised "IndexError: list index out of range"
      | Option.some m =>
          ActResult.returned
            (contentOrDefault m.content "No content or commands to execute") a
  else
    let r := actLoop env a.tool_calls a
    ActResult.returned (String.intercalate "\n\n" r.1) r.2

/-- Python truthiness of an optional string. -/
def truthy : Option String → Bool
  | Option.none => false
  | Option.some s => s ≠ ""

/-- toolcall.py lines 38-41: append the directive prompt when non-empty. -/
def nextStepAug (a : Agent) : Agent :=
  if a.next_step_prompt ≠ "" then addMsg a (user_message a.next_step_prompt) else a

/-- toolcall.py lines 35-133.  Total by construction: both raise-capable
external operations (llm.ask_tool, Message.from_tool_calls) are modelled
as Except values and every error branch mirrors the source's handler, so
the function never propagates a failure. -/
def think (env : Env) (a0 : Agent) : Bool × Agent :=
  let a1 := nextStepAug a0
  match env.askTool with
  | Except.error _ =>
      (false, addMsg a1 (assistant_message "I encountered an error processing your request"))
  | Except.ok resp =>
      let tcs := resp.tool_calls.getD []
      let a2 : Agent := { a1 with tool_calls := tcs }
      if a2.tool_choices = ToolChoice.none then
        if truthy resp.content then
          (true, addMsg a2 (assistant_message (resp.content.getD "")))
        else (false, a2)
      else
        let msgR : Except String Message :=
          if tcs ≠ [] then env.fromToolCalls resp.content tcs
          else Except.ok (assistant_message (resp.content.getD "No response generated"))
        match msgR with
        | Except.error _ =>
            (false, addMsg a2 (assistant_message "I had trouble formulating my response"))
        | Except.ok m =>
            let a3 := addMsg a2 m
            if a3.tool_choices = ToolChoice.required ∧ tcs = [] then (true, a3)
            else if a3.tool_choices = ToolChoice.auto ∧ tcs = [] ∧ truthy resp.content then
              (true, a3)
            else if a3.tool_choices = ToolChoice.auto ∧ tcs = [] ∧ ¬ truthy resp.content then
              (false, a3)
            else (!tcs.isEmpty, a3)

end TC

namespace PS

/-- powershell.py line 25. -/
def sentinel : List Char := "<<exit>>".data

/-- Whether the first list is a leading segment of the second. -/
def leadsWith : List Char → List Char → Bool
  | [], _ => true
  | _ :: _, [] => false
  | p :: ps, c :: cs => p == c && leadsWith ps cs

/-- Index of the first occurrence of pat as a contiguous segment
(Python `txt.index(pat)`; `none` when `pat in txt` is false).  The
source only ever applies it to the fixed non-empty sentinel. -/
def findSub (pat : List Char) : List Char → Option Nat
  | [] => Option.none
  | c :: cs =>
    if leadsWith pat (c :: cs) then Option.some 0
    else (findSub pat cs).map (fun n => n + 1)

/-- powershell.py lines 117-120: strip one trailing line terminator. -/
def stripNL (t : List Char) : List Char :=
  if t.getLast? = Option.some '\n' then t.dropLast else t

/-- State of one _PowerShellSession instance: the _started and _timed_out
flags, plus the owned process's returncode as observed at the call. -/
structure Session where
  started : Bool
  timed_out : Bool
  returncode : Option Int
deriving DecidableEq

/-- Behaviour of the child process during one run(): the successive
(stdout, stderr) chunk pairs produced by the poll iterations (an empty
first component is a read that returned no stdout bytes; exhausting the
list means the timeout budget elapses before the sentinel is seen), and
whether process.send_signal raises (`some msg`) or succeeds (`none`). -/
structure RunEnv where
  chunks : List (List Char × List Char)
  signalFailure : Option String

/-- Observable outcome of run(): a raised ToolError, a raised non-ToolError
exception propagating out of send_signal, the "tool must be restarted"
ToolResult carrying the observed returncode, or a CLIResult. -/
inductive RunOutcome where
  | raised (msg : String)
  | raisedOther (msg : String)
  | restartRequired (rc : Int)
  | cliResult (output error : List Char)
deriving DecidableEq

/-- powershell.py lines 64-66 and 112-114 (with _timeout = 120.0). -/
def timedOutMsg : String :=
  "timed out: PowerShell has not returned in 120.0 seconds and must be restarted"

/-- powershell.py lines 84-102: the poll loop.  Per iteration: read a
stdout chunk; when non-empty, append it and stop as soon as the sentinel
occurs in the accumulated output, truncating at its first occurrence
(skipping that iteration's stderr read, as `break` does); otherwise also
read and append a stderr chunk.  Exhausted chunks model the TimeoutError
of the enclosing asyncio.timeout. -/
def readLoop :
    List (List Char × List Char) → List Char → List Char → Option (List Char × List Char)
  | [], _, _ => Option.none
  | (so, se) :: rest, out, err =>
    if so = [] then readLoop rest out (err ++ se)
    else
      match findSub sentinel (out ++ so) with
      | Option.some i => Option.some ((out ++ so).take i, err)
      | Option.none => readLoop rest (out ++ so) (err ++ se)

/-- powershell.py lines 54-127. -/
def run (env : RunEnv) (s : Session) (_command : String) : RunOutcome × Session :=
  if s.started = false then (RunOutcome.raised "Session has not started.", s)
  else
    match s.returncode with
    | Option.some rc => (RunOutcome.restartRequired rc, s)
    | Option.none =>
      if s.timed_out then (RunOutcome.raised timedOutMsg, s)
      else
        match readLoop env.chunks [] [] with
        | Option.some oe => (RunOutcome.cliResult (stripNL oe.1) (stripNL oe.2), s)
        | Option.none =>
          let s2 := { s with timed_out := true }
          match env.signalFailure with
          | Option.none => (RunOutcome.raised timedOutMsg, s2)
          | Option.some m => (RunOutcome.raisedOther m, s2)

/-- powershell.py lines 27-29: a freshly constructed session. -/
def newSession : Session := ⟨false, false, Option.none⟩

/-- powershell.py lines 31-44: start is an idempotent spawn. -/
def startSession (s : Session) : Session :=
  if s.started then s else { s with started := true }

/-- powershell.py lines 153-158: the adapter's restart constructs a fresh
instance and starts it, replacing the owned session wholesale. -/
def restartedSession : Session := startSession newSession

end PS

namespace TC

/-- The tool-role message act records for one call and its observation
(toolcall.py lines 152-154). -/
def toolMsgOf (c : ToolCall) (o : String) : Message :=
  tool_message o c.id c.function.name

theorem addMsg_memory (a : Agent) (m : Message) :
    (addMsg a m).memory = a.memory ++ [m] := rfl

theorem addMsg_tool_calls (a : Agent) (m : Message) :
    (addMsg a m).tool_calls = a.tool_calls := rfl

theorem handle_special_tool_shape (a : Agent) (n : String) :
    handle_special_tool a n = a ∨
    handle_special_tool a n = { a with state := AgentState.finished } := by
  unfold handle_special_tool should_finish_execution
  split
  · exact Or.inr rfl
  · exact Or.inl rfl

theorem execute_tool_shape (env : Env) (a : Agent) (cmd : ToolCall) :
    (execute_tool env a cmd).2 = a ∨
    (execute_tool env a cmd).2 = { a with state := AgentState.finished } := by
  simp only [execute_tool]
  repeat' split
  all_goals
    first
      | exact Or.inl rfl
      | exact handle_special_tool_shape a cmd.function.name

theorem execute_tool_memory (env : Env) (a : Agent) (cmd : ToolCall) :
    (execute_tool env a cmd).2.memory = a.memory := by
  rcases execute_tool_shape env a cmd with h | h <;> rw [h]

theorem execute_tool_tool_calls (env : Env) (a : Agent) (cmd : ToolCall) :
    (execute_tool env a cmd).2.tool_calls = a.tool_calls := by
  rcases execute_tool_shape env a cmd with h | h <;> rw [h]

theorem actLoop_spec (env : Env) :
    ∀ (calls : List ToolCall) (a : Agent),
      (actLoop env calls a).1.length = calls.length ∧
      (actLoop env calls a).2.memory =
        a.memory ++ List.zipWith toolMsgOf calls (actLoop env calls a).1 ∧
      (actLoop env calls a).2.tool_calls = a.tool_calls := by
  intro calls
  induction calls with
  | nil => intro a; simp [actLoop]
  | cons c rest ih =>
    intro a
    have hmem := execute_tool_memory env a c
    have htc := execute_tool_tool_calls env a c
    obtain ⟨h1, h2, h3⟩ := ih
      (addMsg (execute_tool env a c).2 (tool_message (execute_tool env a c).1 c.id c.function.name))
    refine ⟨?_, ?_, ?_⟩
    · simp only [actLoop, List.length_cons, h1]
    · simp only [actLoop]
      rw [h2, addMsg_memory, hmem]
      simp [toolMsgOf, List.append_assoc]
    · simp only [actLoop]
      rw [h3, addMsg_tool_calls, htc]

end TC

/-- C1: for a think() cycle that proposed the (non-empty) list of tool
calls now pending, act() executes them strictly sequentially in proposal
order, appends exactly one tool-role message per call to Memory in that
order — each keyed by the originating call id and tool name and carrying
that call's observation — and returns the observations joined by a
double-newline separator. -/
theorem claim_C1_act_sequential (env : TC.Env) (a : TC.Agent)
    (h : a.tool_calls ≠ []) :
    ∃ obs a2,
      TC.actLoop env a.tool_calls a = (obs, a2) ∧
      TC.act env a = TC.ActResult.returned (String.intercalate "\n\n" obs) a2 ∧
      obs.length = a.tool_calls.length ∧
      a2.memory = a.memory ++ List.zipWith TC.toolMsgOf a.tool_calls obs := by
  refine ⟨(TC.actLoop env a.tool_calls a).1, (TC.actLoop env a.tool_calls a).2, rfl, ?_, ?_, ?_⟩
  · unfold TC.act
    rw [if_neg h]
  · exact (TC.actLoop_spec env a.tool_calls a).1
  · exact (TC.actLoop_spec env a.tool_calls a).2.1

/-- C3: whenever execute_tool reaches the execution of a tool whose name is
in the configured terminating set and that execution returns a value, the
agent's state is set to Finished, for every possible result value r. -/
theorem claim_C3_special_tool_finished (env : TC.Env) (a : TC.Agent) (cmd : TC.ToolCall)
    (args : String) (r : TC.ToolResultV)
    (hname : ¬ cmd.function.name = "")
    (hknown : env.toolNames.contains cmd.function.name = true)
    (hspecial : TC.is_special_tool a cmd.function.name = true)
    (hjson : env.parseJson (TC.argString cmd.function) = Option.some args)
    (hexec : env.execTool cmd.function.name args = TC.ExecOutcome.ok r) :
    (TC.execute_tool env a cmd).2.state = TC.AgentState.finished := by
  have hmem : cmd.function.name ∈ env.toolNames := by simpa using hknown
  simp [TC.execute_tool, TC.handle_special_tool, TC.should_finish_execution,
    hname, hmem, hjson, hexec, hspecial]

/-- C9: if a tool whose name is in the terminating set raises during
execution, execute_tool returns the wrapped error observation and leaves
the agent (in particular its state) unchanged: the Finished transition
happens only on the non-raising path. -/
theorem claim_C9_exception_skips_finished (env : TC.Env) (a : TC.Agent) (cmd : TC.ToolCall)
    (args : String) (e : String)
    (hname : ¬ cmd.function.name = "")
    (hknown : env.toolNames.contains cmd.function.name = true)
    (_hspecial : TC.is_special_tool a cmd.function.name = true)
    (hjson : env.parseJson (TC.argString cmd.function) = Option.some args)
    (hexec : env.execTool cmd.function.name args = TC.ExecOutcome.exn e) :
    TC.execute_tool env a cmd =
      ("Error: ⚠️ Tool '" ++ cmd.function.name ++ "' encountered a problem: " ++ e, a) ∧
    (TC.execute_tool env a cmd).2.state = a.state := by
  have hmem : cmd.function.name ∈ env.toolNames := by simpa using hknown
  have hmain : TC.execute_tool env a cmd =
      ("Error: ⚠️ Tool '" ++ cmd.function.name ++ "' encountered a problem: " ++ e, a) := by
    simp [TC.execute_tool, hname, hmem, hjson, hexec]
  exact ⟨hmain, by rw [hmain]⟩

/-- C5: execute_tool never raises — each failure mode (missing function
name, unknown tool, unparsable argument payload, tool raising internally)
yields a descriptive error-observation string without touching the agent,
and act() on pending tool calls always returns (never raises), so the
cycle continues. -/
theorem claim_C5_execute_tool_never_raises :
    (∀ (env : TC.Env) (a : TC.Agent) (cmd : TC.ToolCall),
       cmd.function.name = "" →
       TC.execute_tool env a cmd = ("Error: Invalid command format", a)) ∧
    (∀ (env : TC.Env) (a : TC.Agent) (cmd : TC.ToolCall),
       ¬ cmd.function.name = "" →
       env.toolNames.contains cmd.function.name = false →
       TC.execute_tool env a cmd =
         ("Error: Unknown tool '" ++ cmd.function.name ++ "'", a)) ∧
    (∀ (env : TC.Env) (a : TC.Agent) (cmd : TC.ToolCall),
       ¬ cmd.function.name = "" →
       env.toolNames.contains cmd.function.name = true →
       env.parseJson (TC.argString cmd.function) = Option.none →
       TC.execute_tool env a cmd =
         ("Error: Error parsing arguments for " ++ cmd.function.name ++
           ": Invalid JSON format", a)) ∧
    (∀ (env : TC.Env) (a : TC.Agent) (cmd : TC.ToolCall) (args e : String),
       ¬ cmd.function.name = "" →
       env.toolNames.contains cmd.function.name = true →
       env.parseJson (TC.argString cmd.function) = Option.some args →
       env.execTool cmd.function.name args = TC.ExecOutcome.exn e →
       TC.execute_tool env a cmd =
         ("Error: ⚠️ Tool '" ++ cmd.function.name ++ "' encountered a problem: " ++ e, a)) ∧
    (∀ (env : TC.Env) (a : TC.Agent), a.tool_calls ≠ [] →
       ∃ v a2, TC.act env a = TC.ActResult.returned v a2) := by
  refine ⟨?_, ?_, ?_, ?_, ?_⟩
  · intro env a cmd h
    simp [TC.execute_tool, h]
  · intro env a cmd h1 h2
    have hnm : cmd.function.name ∉ env.toolNames := by simpa using h2
    simp [TC.execute_tool, h1, hnm]
  · intro env a cmd h1 h2 h3
    have hmem : cmd.function.name ∈ env.toolNames := by simpa using h2
    simp [TC.execute_tool, h1, hmem, h3]
  · intro env a cmd args e h1 h2 h3 h4
    have hmem : cmd.function.name ∈ env.toolNames := by simpa using h2
    simp [TC.execute_tool, h1, hmem, h3, h4]
  · intro env a h
    unfold TC.act
    rw [if_neg h]
    exact ⟨_, _, rfl⟩

namespace TC

theorem nextStepAug_fields (a : Agent) :
    (nextStepAug a).tool_choices = a.tool_choices ∧
    (nextStepAug a).tool_calls = a.tool_calls := by
  unfold nextStepAug addMsg
  split <;> exact ⟨rfl, rfl⟩

theorem addMsg_tool_choices (a : Agent) (m : Message) :
    (addMsg a m).tool_choices = a.tool_choices := rfl

theorem addMsg_state (a : Agent) (m : Message) :
    (addMsg a m).state = a.state := rfl

end TC

theorem act_pure_text (env : TC.Env) (b : TC.Agent) (c : String)
    (h1 : b.tool_calls = []) (h2 : ¬ b.tool_choices = TC.ToolChoice.required)
    (h3 : b.memory.getLast? = Option.some (TC.assistant_message c)) (hcne : ¬ c = "") :
    TC.act env b = TC.ActResult.returned c b := by
  simp [TC.act, h1, h2, h3, TC.contentOrDefault, TC.assistant_message, hcne]

/-- C4: when act() is entered with zero pending tool calls it raises the
fixed configuration error under the Required policy; under any other
policy it returns the last recorded message's text verbatim (a fixed
placeholder when that content is empty); in particular, under Auto with
zero proposed tool calls and non-empty model content, the think/act cycle
returns that content unchanged. -/
theorem claim_C4_act_zero_tool_calls :
    (∀ (env : TC.Env) (a : TC.Agent), a.tool_calls = [] →
       a.tool_choices = TC.ToolChoice.required →
       TC.act env a = TC.ActResult.raised TC.TOOL_CALL_REQUIRED) ∧
    (∀ (env : TC.Env) (a : TC.Agent) (m : TC.Message), a.tool_calls = [] →
       ¬ a.tool_choices = TC.ToolChoice.required →
       a.memory.getLast? = Option.some m →
       TC.act env a =
         TC.ActResult.returned
           (TC.contentOrDefault m.content "No content or commands to execute") a) ∧
    (∀ (env : TC.Env) (a : TC.Agent) (resp : TC.LLMResponse) (c : String),
       a.tool_choices = TC.ToolChoice.auto →
       env.askTool = Except.ok resp →
       resp.content = Option.some c → ¬ c = "" →
       resp.tool_calls.getD [] = [] →
       (TC.think env a).1 = true ∧
       TC.act env (TC.think env a).2 = TC.ActResult.returned c (TC.think env a).2) := by
  refine ⟨?_, ?_, ?_⟩
  · intro env a h1 h2
    simp [TC.act, h1, h2]
  · intro env a m h1 h2 hm
    simp [TC.act, h1, h2, hm]
  · intro env a resp c hauto hask hc hcne htcs
    have hth : TC.think env a =
        (true, TC.addMsg { TC.nextStepAug a with tool_calls := ([] : List TC.ToolCall) }
          (TC.assistant_message c)) := by
      simp [TC.think, hask, htcs, hc, hcne, TC.truthy, hauto, TC.addMsg_tool_choices,
        (TC.nextStepAug_fields a).1]
    constructor
    · rw [hth]
    · rw [hth]
      refine act_pure_text env _ c rfl ?_ ?_ hcne
      · simp [TC.addMsg_tool_choices, (TC.nextStepAug_fields a).1, hauto]
      · simp [TC.addMsg_memory]

/-- C6: think() never raises — it is a total function of the agent and of
the (arbitrary) collaborator behaviours; an LLM/transport failure is
caught, a synthetic assistant failure note is appended to Memory and the
no-action signal (false) is returned; an unexpected internal fault at
message creation is likewise caught, recorded and converted to no-action. -/
theorem claim_C6_think_never_raises :
    (∀ (env : TC.Env) (a : TC.Agent) (e : String),
       env.askTool = Except.error e →
       TC.think env a =
         (false, TC.addMsg (TC.nextStepAug a)
           (TC.assistant_message "I encountered an error processing your request"))) ∧
    (∀ (env : TC.Env) (a : TC.Agent) (resp : TC.LLMResponse) (e : String),
       env.askTool = Except.ok resp →
       ¬ a.tool_choices = TC.ToolChoice.none →
       resp.tool_calls.getD [] ≠ [] →
       env.fromToolCalls resp.content (resp.tool_calls.getD []) = Except.error e →
       (TC.think env a).1 = false ∧
       (TC.think env a).2.memory =
         (TC.nextStepAug a).memory ++
           [TC.assistant_message "I had trouble formulating my response"]) := by
  constructor
  · intro env a e h
    simp [TC.think, h]
  · intro env a resp e hask hnone htcs herr
    constructor <;>
      simp [TC.think, hask, hnone, htcs, herr, TC.addMsg, (TC.nextStepAug_fields a).1]

def envW : TC.Env :=
  { toolNames := ["terminate", "echo", "boom"]
    parseJson := fun s => if s = "{}" then Option.some "{}" else Option.none
    execTool := fun n _ =>
      if n = "boom" then TC.ExecOutcome.exn "division by zero"
      else TC.ExecOutcome.ok { str := "ok", truthy := true }
    askTool := Except.ok { content := Option.some "final answer", tool_calls := Option.some [] }
    fromToolCalls := fun _ _ => Except.ok (TC.assistant_message "bundled") }

def agent0 : TC.Agent :=
  { next_step_prompt := ""
    tool_choices := TC.ToolChoice.auto
    special_tool_names := ["terminate"]
    tool_calls := []
    memory := []
    state := TC.AgentState.running }

def callEcho : TC.ToolCall :=
  { id := "call_1", function := { name := "echo", arguments := Option.some "{}" } }

def callTerm : TC.ToolCall :=
  { id := "call_2", function := { name := "terminate", arguments := Option.none } }

def callNoName : TC.ToolCall :=
  { id := "call_3", function := { name := "", arguments := Option.none } }

def callUnknown : TC.ToolCall :=
  { id := "call_4", function := { name := "nope", arguments := Option.none } }

def callBadJson : TC.ToolCall :=
  { id := "call_5", function := { name := "echo", arguments := Option.some "oops" } }

def callBoom : TC.ToolCall :=
  { id := "call_6", function := { name := "boom", arguments := Option.some "{}" } }

def agent1 : TC.Agent := { agent0 with tool_calls := [callEcho, callTerm] }

def agent3 : TC.Agent := { agent0 with special_tool_names := ["terminate", "boom"] }

def agentReq : TC.Agent := { agent0 with tool_choices := TC.ToolChoice.required }

def agentMem : TC.Agent := { agent0 with memory := [TC.assistant_message "hi"] }

def envErrLLM : TC.Env := { envW with askTool := Except.error "connection refused" }

def envErrMsg : TC.Env :=
  { envW with
      askTool := Except.ok { content := Option.some "x", tool_calls := Option.some [callEcho] }
      fromToolCalls := fun _ _ => Except.error "pydantic validation error" }

/-- Witness for C1 at a concrete two-call cycle. -/
theorem claim_C1_witness :
    agent1.tool_calls ≠ [] ∧
    ∃ obs a2,
      TC.actLoop envW agent1.tool_calls agent1 = (obs, a2) ∧
      TC.act envW agent1 = TC.ActResult.returned (String.intercalate "\n\n" obs) a2 ∧
      obs.length = agent1.tool_calls.length ∧
      a2.memory = agent1.memory ++ List.zipWith TC.toolMsgOf agent1.tool_calls obs :=
  ⟨by decide, claim_C1_act_sequential envW agent1 (by decide)⟩

/-- Witness for C3 at a concrete terminate call. -/
theorem claim_C3_witness :
    (TC.execute_tool envW agent0 callTerm).2.state = TC.AgentState.finished :=
  claim_C3_special_tool_finished envW agent0 callTerm "{}" { str := "ok", truthy := true }
    (by decide) (by decide) (by decide) (by decide) (by decide)

/-- Witness for C9: a terminating-set tool that raises leaves state alone. -/
theorem claim_C9_witness :
    TC.execute_tool envW agent3 callBoom =
      ("Error: ⚠️ Tool '" ++ callBoom.function.name ++ "' encountered a problem: " ++
        "division by zero", agent3) ∧
    (TC.execute_tool envW agent3 callBoom).2.state = agent3.state :=
  claim_C9_exception_skips_finished envW agent3 callBoom "{}" "division by zero"
    (by decide) (by decide) (by decide) (by decide) (by decide)

/-- Witness for C5 at each of the four failure modes plus a full act(). -/
theorem claim_C5_witness :
    TC.execute_tool envW agent0 callNoName = ("Error: Invalid command format", agent0) ∧
    TC.execute_tool envW agent0 callUnknown =
      ("Error: Unknown tool '" ++ callUnknown.function.name ++ "'", agent0) ∧
    TC.execute_tool envW agent0 callBadJson =
      ("Error: Error parsing arguments for " ++ callBadJson.function.name ++
        ": Invalid JSON format", agent0) ∧
    TC.execute_tool envW agent3 callBoom =
      ("Error: ⚠️ Tool '" ++ callBoom.function.name ++ "' encountered a problem: " ++
        "division by zero", agent3) ∧
    ∃ v a2, TC.act envW agent1 = TC.ActResult.returned v a2 :=
  ⟨claim_C5_execute_tool_never_raises.1 envW agent0 callNoName (by decide),
   claim_C5_execute_tool_never_raises.2.1 envW agent0 callUnknown (by decide) (by decide),
   claim_C5_execute_tool_never_raises.2.2.1 envW agent0 callBadJson
     (by decide) (by decide) (by decide),
   claim_C5_execute_tool_never_raises.2.2.2.1 envW agent3 callBoom "{}" "division by zero"
     (by decide) (by decide) (by decide) (by decide),
   claim_C5_execute_tool_never_raises.2.2.2.2 envW agent1 (by decide)⟩

/-- Witness for C4 at concrete Required, Auto-with-text and think/act runs. -/
theorem claim_C4_witness :
    TC.act envW agentReq = TC.ActResult.raised TC.TOOL_CALL_REQUIRED ∧
    TC.act envW agentMem =
      TC.ActResult.returned
        (TC.contentOrDefault (TC.assistant_message "hi").content
          "No content or commands to execute") agentMem ∧
    ((TC.think envW agent0).1 = true ∧
     TC.act envW (TC.think envW agent0).2 =
       TC.ActResult.returned "final answer" (TC.think envW agent0).2) :=
  ⟨claim_C4_act_zero_tool_calls.1 envW agentReq rfl rfl,
   claim_C4_act_zero_tool_calls.2.1 envW agentMem (TC.assistant_message "hi")
     rfl (by decide) rfl,
   claim_C4_act_zero_tool_calls.2.2 envW agent0
     { content := Option.some "final answer", tool_calls := Option.some [] }
     "final answer" rfl rfl rfl (by decide) rfl⟩

/-- Witness for C6 at a failing transport and a failing message creation. -/
theorem claim_C6_witness :
    TC.think envErrLLM agent0 =
      (false, TC.addMsg (TC.nextStepAug agent0)
        (TC.assistant_message "I encountered an error processing your request")) ∧
    ((TC.think envErrMsg agent0).1 = false ∧
     (TC.think envErrMsg agent0).2.memory =
       (TC.nextStepAug agent0).memory ++
         [TC.assistant_message "I had trouble formulating my response"]) :=
  ⟨claim_C6_think_never_raises.1 envErrLLM agent0 "connection refused" rfl,
   claim_C6_think_never_raises.2 envErrMsg agent0
     { content := Option.some "x", tool_calls := Option.some [callEcho] }
     "pydantic validation error" rfl (by decide) (by decide) rfl⟩

namespace PS

/-- Concatenation of the stdout components of the poll chunks: the full
byte stream the child process writes to stdout during one run(). -/
def catOuts : List (List Char × List Char) → List Char
  | [] => []
  | (so, _) :: rest => so ++ catOuts rest

theorem sentinel_ne_nil : sentinel ≠ [] := by decide

/-- pat has no proper non-empty border (no self-overlap of a prefix with a
suffix); stated with the length bound first so it is decidable. -/
def borderFree (pat : List Char) : Prop :=
  ∀ n, n < pat.length → 0 < n → pat.drop n ≠ pat.take (pat.length - n)

theorem sentinel_borderFree : borderFree sentinel := by
  unfold borderFree
  decide

theorem leadsWith_le_length : ∀ (p s : List Char), leadsWith p s = true → p.length ≤ s.length
  | [], s, _ => by simp
  | p :: ps, [], h => by simp [leadsWith] at h
  | p :: ps, c :: cs, h => by
    simp only [leadsWith, Bool.and_eq_true] at h
    have := leadsWith_le_length ps cs h.2
    simp only [List.length_cons]
    omega

theorem take_of_leadsWith : ∀ (p s : List Char), leadsWith p s = true → s.take p.length = p
  | [], s, _ => by simp
  | p :: ps, [], h => by simp [leadsWith] at h
  | p :: ps, c :: cs, h => by
    simp only [leadsWith, Bool.and_eq_true, beq_iff_eq] at h
    rw [List.length_cons, List.take_succ_cons, take_of_leadsWith ps cs h.2, h.1]

theorem leadsWith_of_take : ∀ (p s : List Char), s.take p.length = p → leadsWith p s = true
  | [], _, _ => rfl
  | p :: ps, [], h => by simp at h
  | p :: ps, c :: cs, h => by
    rw [List.length_cons, List.take_succ_cons] at h
    injection h with h1 h2
    simp [leadsWith, h1, leadsWith_of_take ps cs h2]

theorem leadsWith_append : ∀ (p u v : List Char),
    leadsWith p u = true → leadsWith p (u ++ v) = true
  | [], _, _, _ => rfl
  | p :: ps, [], v, h => by simp [leadsWith] at h
  | p :: ps, c :: cs, v, h => by
    simp only [leadsWith, Bool.and_eq_true] at h
    simp only [List.cons_append, leadsWith, Bool.and_eq_true]
    exact ⟨h.1, leadsWith_append ps cs v h.2⟩

theorem leadsWith_refl : ∀ (p : List Char), leadsWith p p = true
  | [] => rfl
  | p :: ps => by simp [leadsWith, leadsWith_refl ps]

theorem leadsWith_self_append (p v : List Char) : leadsWith p (p ++ v) = true :=
  leadsWith_append p p v (leadsWith_refl p)

theorem findSub_cons_of_leadsWith (pat : List Char) (c : Char) (cs : List Char)
    (h : leadsWith pat (c :: cs) = true) : findSub pat (c :: cs) = Option.some 0 := by
  simp [findSub, h]

theorem findSub_none_inv (pat : List Char) (c : Char) (cs : List Char)
    (h : findSub pat (c :: cs) = Option.none) :
    leadsWith pat (c :: cs) = false ∧ findSub pat cs = Option.none := by
  by_cases hl : leadsWith pat (c :: cs) = true
  · rw [findSub_cons_of_leadsWith pat c cs hl] at h
    exact absurd h (by simp)
  · have hl' : leadsWith pat (c :: cs) = false := by simpa using hl
    refine ⟨hl', ?_⟩
    simpa [findSub, hl', Option.map_eq_none'] using h

theorem findSub_occ_le (pat : List Char) : ∀ (t : List Char) (i : Nat),
    findSub pat t = Option.some i → i + pat.length ≤ t.length
  | [], i, h => by simp [findSub] at h
  | c :: cs, i, h => by
    by_cases hl : leadsWith pat (c :: cs) = true
    · rw [findSub_cons_of_leadsWith pat c cs hl] at h
      have hi : i = 0 := by
        have := Option.some.inj h
        omega
      subst hi
      have := leadsWith_le_length pat (c :: cs) hl
      omega
    · have hl' : leadsWith pat (c :: cs) = false := by simpa using hl
      simp only [findSub, hl', Bool.false_eq_true, if_false, Option.map_eq_some'] at h
      obtain ⟨j, hj, hji⟩ := h
      have := findSub_occ_le pat cs j hj
      simp only [List.length_cons]
      omega

theorem findSub_append_self (pat : List Char) (hne : pat ≠ []) :
    ∀ (u v : List Char), findSub pat (u ++ pat ++ v) ≠ Option.none := by
  intro u
  induction u with
  | nil =>
    intro v
    cases pat with
    | nil => exact absurd rfl hne
    | cons p ps =>
      have hl : leadsWith (p :: ps) (p :: (ps ++ v)) = true := by
        have := leadsWith_self_append (p :: ps) v
        simpa [List.cons_append] using this
      intro h
      rw [List.nil_append, List.cons_append, findSub_cons_of_leadsWith _ _ _ hl] at h
      exact Option.noConfusion h
  | cons c us ih =>
    intro v h
    have hsplit : (c :: us) ++ pat ++ v = c :: (us ++ pat ++ v) := by simp
    rw [hsplit] at h
    obtain ⟨-, h2⟩ := findSub_none_inv pat c (us ++ pat ++ v) h
    exact ih v h2

theorem findSub_some_append (pat : List Char) :
    ∀ (u : List Char) (i : Nat) (v : List Char),
      findSub pat u = Option.some i → findSub pat (u ++ v) ≠ Option.none := by
  intro u
  induction u with
  | nil => intro i v h; simp [findSub] at h
  | cons c us ih =>
    intro i v h hcontra
    rw [List.cons_append] at hcontra
    obtain ⟨hl, h2⟩ := findSub_none_inv pat c (us ++ v) hcontra
    by_cases hlu : leadsWith pat (c :: us) = true
    · have hext := leadsWith_append pat (c :: us) v hlu
      rw [List.cons_append] at hext
      rw [hext] at hl
      exact Bool.noConfusion hl
    · have hlu' : leadsWith pat (c :: us) = false := by simpa using hlu
      have hse : ∃ j, findSub pat us = Option.some j := by
        simp only [findSub, hlu', Bool.false_eq_true, if_false, Option.map_eq_some'] at h
        obtain ⟨j, hj, -⟩ := h
        exact ⟨j, hj⟩
      obtain ⟨j, hj⟩ := hse
      exact ih j v hj h2

theorem not_leadsWith_mid (pat : List Char) (_hne : pat ≠ []) (hbf : borderFree pat) :
    ∀ (t extra : List Char), findSub pat t = Option.none → t ≠ [] →
      ¬ leadsWith pat (t ++ pat ++ extra) = true := by
  intro t extra hfree ht hl
  by_cases hlen : pat.length ≤ t.length
  · have htake : (t ++ (pat ++ extra)).take pat.length = t.take pat.length := by
      rw [List.take_append_eq_append_take]
      have hz : pat.length - t.length = 0 := Nat.sub_eq_zero_of_le hlen
      rw [hz]
      simp
    have h0 := take_of_leadsWith pat (t ++ pat ++ extra) hl
    rw [List.append_assoc, htake] at h0
    have hlw : leadsWith pat t = true := leadsWith_of_take pat t h0
    cases t with
    | nil => exact ht rfl
    | cons c cs =>
      rw [findSub_cons_of_leadsWith pat c cs hlw] at hfree
      exact Option.noConfusion hfree
  · push_neg at hlen
    have h0 := take_of_leadsWith pat (t ++ pat ++ extra) hl
    rw [List.append_assoc, List.take_append_eq_append_take,
      List.take_of_length_le (le_of_lt hlen)] at h0
    have h2 : (pat ++ extra).take (pat.length - t.length) =
        pat.take (pat.length - t.length) := by
      rw [List.take_append_eq_append_take]
      have hz : pat.length - t.length - pat.length = 0 := by omega
      rw [hz]
      simp
    rw [h2] at h0
    have h3 : pat.drop t.length = pat.take (pat.length - t.length) := by
      have hc := congrArg (List.drop t.length) h0
      rw [List.drop_left] at hc
      exact hc.symm
    have h4 : 0 < t.length := List.length_pos.mpr ht
    exact hbf t.length hlen h4 h3

theorem findSub_boundary (pat : List Char) (hne : pat ≠ []) (hbf : borderFree pat) :
    ∀ (t t1 r extra : List Char) (i : Nat),
      findSub pat t = Option.none →
      t1 ++ r = t ++ pat ++ extra →
      findSub pat t1 = Option.some i →
      i = t.length ∧ t1.take i = t := by
  intro t
  induction t with
  | nil =>
    intro t1 r extra i hfree heq hocc
    have hlen := findSub_occ_le pat t1 i hocc
    rw [List.nil_append] at heq
    have htake : t1.take pat.length = pat := by
      have h1 : (t1 ++ r).take pat.length = t1.take pat.length := by
        rw [List.take_append_eq_append_take]
        have hz : pat.length - t1.length = 0 := by omega
        rw [hz]
        simp
      rw [heq, List.take_left] at h1
      exact h1.symm
    have hlw : leadsWith pat t1 = true := leadsWith_of_take pat t1 htake
    cases t1 with
    | nil => simp [findSub] at hocc
    | cons c cs =>
      rw [findSub_cons_of_leadsWith pat c cs hlw] at hocc
      have hi : i = 0 := by
        have := Option.some.inj hocc
        omega
      subst hi
      exact ⟨rfl, rfl⟩
  | cons d ds ih =>
    intro t1 r extra i hfree heq hocc
    cases t1 with
    | nil => simp [findSub] at hocc
    | cons c cs =>
      have heq' : c :: (cs ++ r) = d :: (ds ++ pat ++ extra) := by
        simpa [List.cons_append, List.append_assoc] using heq
      have hc : c = d := by injection heq'
      have hrest : cs ++ r = ds ++ pat ++ extra := by
        have := congrArg List.tail heq'
        simpa [List.append_assoc] using this
      obtain ⟨hfree1, hfree2⟩ := findSub_none_inv pat d ds hfree
      by_cases hl : leadsWith pat (c :: cs) = true
      · exfalso
        have h1 : leadsWith pat ((c :: cs) ++ r) = true := leadsWith_append _ _ _ hl
        rw [heq] at h1
        exact not_leadsWith_mid pat hne hbf (d :: ds) extra hfree (by simp) h1
      · have hl' : leadsWith pat (c :: cs) = false := by simpa using hl
        have hocc' : ∃ j, findSub pat cs = Option.some j ∧ j + 1 = i := by
          simpa [findSub, hl', Option.map_eq_some'] using hocc
        obtain ⟨j, hj, hji⟩ := hocc'
        obtain ⟨hjd, htk⟩ := ih cs r extra j hfree2 hrest hj
        constructor
        · rw [← hji, hjd]
          simp
        · rw [← hji, List.take_succ_cons, htk, hc]

theorem readLoop_finds :
    ∀ (chunks : List (List Char × List Char)) (out err t extra : List Char),
      findSub sentinel t = Option.none →
      out ++ catOuts chunks = t ++ sentinel ++ extra →
      findSub sentinel out = Option.none →
      ∃ e, readLoop chunks out err = Option.some (t, e) := by
  intro chunks
  induction chunks with
  | nil =>
    intro out err t extra hfree heq hout
    exfalso
    rw [catOuts, List.append_nil] at heq
    subst heq
    exact findSub_append_self sentinel sentinel_ne_nil t extra hout
  | cons ch rest ih =>
    intro out err t extra hfree heq hout
    obtain ⟨so, se⟩ := ch
    by_cases hso : so = []
    · subst hso
      have heq2 : out ++ catOuts rest = t ++ sentinel ++ extra := by
        simpa [catOuts] using heq
      obtain ⟨e, he⟩ := ih out (err ++ se) t extra hfree heq2 hout
      refine ⟨e, ?_⟩
      simpa [readLoop] using he
    · have hstep : readLoop ((so, se) :: rest) out err =
          (match findSub sentinel (out ++ so) with
           | Option.some i => Option.some ((out ++ so).take i, err)
           | Option.none => readLoop rest (out ++ so) (err ++ se)) := by
        simp only [readLoop]
        rw [if_neg hso]
      have hcat : (out ++ so) ++ catOuts rest = t ++ sentinel ++ extra := by
        simpa [catOuts, List.append_assoc] using heq
      cases hf : findSub sentinel (out ++ so) with
      | some i =>
        obtain ⟨hi, htk⟩ := findSub_boundary sentinel sentinel_ne_nil sentinel_borderFree
          t (out ++ so) (catOuts rest) extra i hfree hcat hf
        refine ⟨err, ?_⟩
        rw [hstep, hf]
        show Option.some ((out ++ so).take i, err) = Option.some (t, err)
        rw [htk]
      | none =>
        obtain ⟨e, he⟩ := ih (out ++ so) (err ++ se) t extra hfree hcat hf
        refine ⟨e, ?_⟩
        rw [hstep, hf]
        exact he

theorem getLast?_decomp (t : List Char) (c : Char) (h : t.getLast? = Option.some c) :
    t.dropLast ++ [c] = t :=
  List.dropLast_append_getLast? c (Option.mem_def.mpr h)

theorem findSub_none_stripNL (pat t : List Char) (h : findSub pat t = Option.none) :
    findSub pat (stripNL t) = Option.none := by
  unfold stripNL
  split
  case isTrue hlast =>
    cases hf : findSub pat t.dropLast with
    | none => rfl
    | some i =>
      exfalso
      have hdec := getLast?_decomp t '\n' hlast
      have hne := findSub_some_append pat t.dropLast i ['\n'] hf
      rw [hdec] at hne
      exact hne h
  case isFalse => exact h

end PS

/-- C7: on a freshly started session, whenever the child's stdout stream
consists of a sentinel-free text t followed by the sentinel (and anything
after it), run() succeeds, its output is t truncated at the sentinel's
first occurrence — i.e. exactly t — with one trailing line terminator
stripped, the error text likewise stripped, and no sentinel fragment is
present in the result. -/
theorem claim_C7_sentinel_truncation (env : PS.RunEnv) (cmd : String) (t extra : List Char)
    (hfree : PS.findSub PS.sentinel t = Option.none)
    (hstream : PS.catOuts env.chunks = t ++ PS.sentinel ++ extra) :
    ∃ e, PS.run env PS.restartedSession cmd =
        (PS.RunOutcome.cliResult (PS.stripNL t) e, PS.restartedSession) ∧
      PS.findSub PS.sentinel (PS.stripNL t) = Option.none := by
  obtain ⟨e, he⟩ := PS.readLoop_finds env.chunks [] [] t extra hfree
    (by simpa using hstream) rfl
  refine ⟨PS.stripNL e, ?_, PS.findSub_none_stripNL _ _ hfree⟩
  simp [PS.run, PS.restartedSession, PS.startSession, PS.newSession, he]

/-- C2: a run() whose poll loop exhausts the timeout budget marks the
session TimedOut; on a session already marked TimedOut, run() fails
immediately with a result that does not depend on the process environment
at all (no process interaction) and never executes a command; the flag is
never cleared by run(); only the adapter's restart, which replaces the
instance wholesale, yields a session with the flag cleared. -/
theorem claim_C2_timed_out_sticky :
    (∀ (env : PS.RunEnv) (s : PS.Session) (cmd : String),
       s.started = true → s.returncode = Option.none → s.timed_out = false →
       PS.readLoop env.chunks [] [] = Option.none →
       (PS.run env s cmd).2.timed_out = true ∧
       ∀ o e, (PS.run env s cmd).1 ≠ PS.RunOutcome.cliResult o e) ∧
    (∀ (env : PS.RunEnv) (s : PS.Session) (cmd : String),
       s.started = true → s.timed_out = true →
       PS.run env s cmd =
         ((match s.returncode with
           | Option.some rc => PS.RunOutcome.restartRequired rc
           | Option.none => PS.RunOutcome.raised PS.timedOutMsg), s)) ∧
    (∀ (env : PS.RunEnv) (s : PS.Session) (cmd : String),
       s.timed_out = true → (PS.run env s cmd).2.timed_out = true) ∧
    (PS.restartedSession.timed_out = false ∧ PS.restartedSession.started = true) := by
  refine ⟨?_, ?_, ?_, by decide, by decide⟩
  · intro env s cmd h1 h2 h3 h4
    constructor
    · cases hsf : env.signalFailure with
      | none => simp [PS.run, h1, h2, h3, h4, hsf]
      | some m => simp [PS.run, h1, h2, h3, h4, hsf]
    · intro o e
      cases hsf : env.signalFailure with
      | none => simp [PS.run, h1, h2, h3, h4, hsf]
      | some m => simp [PS.run, h1, h2, h3, h4, hsf]
  · intro env s cmd h1 h2
    cases hrc : s.returncode with
    | some rc => simp [PS.run, h1, hrc]
    | none => simp [PS.run, h1, h2, hrc]
  · intro env s cmd h
    by_cases hs : s.started = true
    · cases hrc : s.returncode with
      | some rc => simp [PS.run, hs, hrc, h]
      | none => simp [PS.run, hs, hrc, h]
    · have hs' : s.started = false := by simpa using hs
      simp [PS.run, hs', h]

/-- C10: run() checks the exited-process condition before the TimedOut
flag, so a session that is both TimedOut and whose process has exited
returns the normal restart-required result carrying the exit status
instead of raising the timed-out error. -/
theorem claim_C10_exited_checked_first (env : PS.RunEnv) (s : PS.Session) (cmd : String)
    (rc : Int) (hs : s.started = true) (_ht : s.timed_out = true)
    (hrc : s.returncode = Option.some rc) :
    PS.run env s cmd = (PS.RunOutcome.restartRequired rc, s) := by
  simp [PS.run, hs, hrc]

/-- C8 as stated is false; amended: on timeout the session is marked
TimedOut and signal delivery is attempted, but delivery is not guarded —
when process.send_signal raises, that exception propagates out of run() in
place of the timed-out error; only when delivery succeeds does run() fail
with the 'timed out, must restart' error. -/
theorem claim_C8_signal_failure_amended (env : PS.RunEnv) (s : PS.Session) (cmd : String)
    (hs : s.started = true) (hrc : s.returncode = Option.none) (ht : s.timed_out = false)
    (hloop : PS.readLoop env.chunks [] [] = Option.none) :
    (PS.run env s cmd).2.timed_out = true ∧
    (env.signalFailure = Option.none →
      PS.run env s cmd = (PS.RunOutcome.raised PS.timedOutMsg, { s with timed_out := true })) ∧
    (∀ m, env.signalFailure = Option.some m →
      PS.run env s cmd = (PS.RunOutcome.raisedOther m, { s with timed_out := true })) := by
  refine ⟨?_, ?_, ?_⟩
  · cases hsf : env.signalFailure with
    | none => simp [PS.run, hs, hrc, ht, hloop, hsf]
    | some m => simp [PS.run, hs, hrc, ht, hloop, hsf]
  · intro hsf
    simp [PS.run, hs, hrc, ht, hloop, hsf]
  · intro m hsf
    simp [PS.run, hs, hrc, ht, hloop, hsf]

def c8env : PS.RunEnv :=
  { chunks := [], signalFailure := Option.some "ProcessLookupError: No such process" }

/-- C8 counterexample: a timing-out run() on a fresh session whose
send_signal raises does not fail with the timed-out error — the signal
exception propagates instead, refuting "signal failure is not escalated
and run() still fails with the timed-out error". -/
theorem claim_C8_counterexample :
    (PS.run c8env PS.restartedSession "Start-Sleep 999").2.timed_out = true ∧
    (PS.run c8env PS.restartedSession "Start-Sleep 999").1 =
      PS.RunOutcome.raisedOther "ProcessLookupError: No such process" ∧
    (PS.run c8env PS.restartedSession "Start-Sleep 999").1 ≠
      PS.RunOutcome.raised PS.timedOutMsg := by
  refine ⟨?_, ?_, ?_⟩ <;> decide

def psenvT : PS.RunEnv := { chunks := [], signalFailure := Option.none }

def sessT : PS.Session := { started := true, timed_out := false, returncode := Option.none }

def sessTO : PS.Session := { started := true, timed_out := true, returncode := Option.none }

def sessEx : PS.Session := { started := true, timed_out := true, returncode := Option.some 1 }

/-- Witness for C2: a concrete timing-out run and a concrete sticky replay. -/
theorem claim_C2_witness :
    ((PS.run psenvT sessT "Get-Location").2.timed_out = true ∧
      ∀ o e, (PS.run psenvT sessT "Get-Location").1 ≠ PS.RunOutcome.cliResult o e) ∧
    PS.run psenvT sessTO "Get-Location" =
      ((match sessTO.returncode with
        | Option.some rc => PS.RunOutcome.restartRequired rc
        | Option.none => PS.RunOutcome.raised PS.timedOutMsg), sessTO) ∧
    (PS.run psenvT sessTO "Get-Location").2.timed_out = true :=
  ⟨claim_C2_timed_out_sticky.1 psenvT sessT "Get-Location" rfl rfl rfl rfl,
   claim_C2_timed_out_sticky.2.1 psenvT sessTO "Get-Location" rfl rfl,
   claim_C2_timed_out_sticky.2.2.1 psenvT sessTO "Get-Location" rfl⟩

def psenvH : PS.RunEnv :=
  { chunks := [("hello\n<<exit>>\n".data, [])], signalFailure := Option.none }

/-- Witness for C7: a command that prints hello returns exactly hello. -/
theorem claim_C7_witness :
    PS.findSub PS.sentinel "hello\n".data = Option.none ∧
    PS.catOuts psenvH.chunks = "hello\n".data ++ PS.sentinel ++ "\n".data ∧
    (∃ e, PS.run psenvH PS.restartedSession "Write-Output hello" =
        (PS.RunOutcome.cliResult (PS.stripNL "hello\n".data) e, PS.restartedSession) ∧
      PS.findSub PS.sentinel (PS.stripNL "hello\n".data) = Option.none) :=
  ⟨by decide, by decide,
   claim_C7_sentinel_truncation psenvH "Write-Output hello" "hello\n".data "\n".data
     (by decide) (by decide)⟩

/-- Witness for the amended C8 at a concrete successful signal delivery. -/
theorem claim_C8_witness :
    (PS.run psenvT sessT "Start-Sleep 999").2.timed_out = true ∧
    PS.run psenvT sessT "Start-Sleep 999" =
      (PS.RunOutcome.raised PS.timedOutMsg, { sessT with timed_out := true }) :=
  ⟨(claim_C8_signal_failure_amended psenvT sessT "Start-Sleep 999" rfl rfl rfl rfl).1,
   (claim_C8_signal_failure_amended psenvT sessT "Start-Sleep 999" rfl rfl rfl rfl).2.1 rfl⟩

/-- Witness for C10: a timed-out session with an exited process. -/
theorem claim_C10_witness :
    PS.run psenvT sessEx "Get-Location" = (PS.RunOutcome.restartRequired 1, sessEx) :=
  claim_C10_exited_checked_first psenvT sessEx "Get-Location" 1 rfl rfl rfl
